import Mathlib

/-!
Verification of `sctools/count.py` (`CountMatrix`): streaming aggregation of a
tagged alignment stream into a sparse cell-by-gene count matrix, together with
persistence (`save`/`load`), merging (`merge_matrices`) and import from the
matrix-market text format (`from_mtx`).

The alignment decoder (pysam) and the annotation reader (`sctools.gtf`) are
external iterators per the spec; streams are modelled as Lean lists of records
exposing the same lookups the code uses (`get_tag`, `mapping_quality`,
`get_attribute`).  scipy sparse matrices are modelled by their value semantics:
a shape plus the coordinate triples fed to `coo_matrix`; `tocsr` preserves the
matrix values (duplicate coordinates summed, as `CsrMatrix.get` computes).
-/

namespace Sctools

/-- Modelled from the spec: an annotation feature record produced by the
`sctools.gtf` reader (not under `src/`): "an ordered stream of feature
records, each with a feature-type field and a key-value attribute lookup". -/
structure GtfRecord where
  feature : String
  attributes : List (String × String)
deriving DecidableEq, Repr

/-- Modelled from the spec: `get_attribute` returns the value of the named
attribute when present. -/
def GtfRecord.get_attribute (r : GtfRecord) (k : String) : Option String :=
  (r.attributes.find? (fun p => p.1 = k)).map Prod.snd

/-- An alignment record as the code uses it: string tag lookup that may be
absent, and an integer mapping quality. -/
structure SamRecord where
  tags : List (String × String)
  mapping_quality : Nat
deriving DecidableEq, Repr

/-- Python `sam_record.get_tag(t)`: the value of tag `t`, or absent (the code turns
the pysam KeyError into a skip). -/
def SamRecord.get_tag (r : SamRecord) (t : String) : Option String :=
  (r.tags.find? (fun p => p.1 = t)).map Prod.snd

/-- Python `dict` lookup `d[k]` on a string-keyed dict of ints, as an
association list (`none` models the KeyError path). -/
def dictFind (d : List (String × Nat)) (k : String) : Option Nat :=
  (d.find? (fun p => p.1 = k)).map Prod.snd

/-- Python `dict` assignment `d[k] = v`: overwrite in place when the key is
present, append otherwise (Python dicts are insertion ordered). -/
def dictInsert (d : List (String × Nat)) (k : String) (v : Nat) : List (String × Nat) :=
  if (d.find? (fun p => p.1 = k)).isSome then
    d.map (fun p => if p.1 = k then (p.1, v) else p)
  else
    d ++ [(k, v)]

/-- Python `sorted(d.items(), key=operator.itemgetter(1))`: stable sort of the dict
items by value. -/
def sortedByValue (d : List (String × Nat)) : List (String × Nat) :=
  d.mergeSort (fun a b => a.2 ≤ b.2)

/-- The value content of a scipy sparse matrix: the shape passed to
`coo_matrix` and the coordinate triples `(row, col, value)`; `tocsr` sums
duplicate coordinates, which `CsrMatrix.get` reflects. -/
structure CsrMatrix where
  shape : Nat × Nat
  triples : List (Nat × Nat × Nat)
deriving DecidableEq, Repr

/-- The matrix value at `(i, j)`: the sum of all coordinate entries there,
accumulated in the `np.uint32` dtype the code requests. -/
def CsrMatrix.get (m : CsrMatrix) (i j : Nat) : Nat :=
  (((m.triples.filter (fun t => t.1 = i ∧ t.2.1 = j)).map (fun t => t.2.2)).sum) % 2 ^ 32

/-- The `CountMatrix` class: a sparse matrix plus row and column label
arrays. -/
structure CountMatrix where
  matrix : CsrMatrix
  row_index : List String
  col_index : List String
deriving DecidableEq, Repr

/-- The tag-name and quality-threshold parameters of `from_bam`, with their
Python defaults. -/
structure Config where
  cell_barcode_tag : String := "CB"
  molecule_barcode_tag : String := "UB"
  gene_id_tag : String := "GE"
  mapq_threshold : Nat := 0
deriving DecidableEq, Repr

/-- The `for gene_index, record in enumerate(...)` loop body of `from_bam`
(lines 119-125): raise on a type-`gene` record without `gene_name`, otherwise
`gene_id_to_index[gene_id] = gene_index`. -/
def buildGeneIndexAux : List (Nat × GtfRecord) → List (String × Nat) →
    Except String (List (String × Nat))
  | [], acc => .ok acc
  | (i, r) :: rest, acc =>
    match r.get_attribute "gene_name" with
    | none => .error "malformed GTF file detected"
    | some gene_id => buildGeneIndexAux rest (dictInsert acc gene_id i)

/-- The `gene_id_to_index` construction: enumerate the annotation records retained
by `filter(retain_types=['gene'])` and map each `gene_name` to its enumeration
index. -/
def buildGeneIndex (ann : List GtfRecord) : Except String (List (String × Nat)) :=
  buildGeneIndexAux ((ann.filter (fun r => r.feature = "gene")).enum) []

/-- The mutable state of the `for sam_record in f` loop of `from_bam`:
the three parallel output arrays, the cell interning dict with its counter,
and `current_molecule` (the initial `tuple()` sentinel, which can equal no
3-tuple, is `none`). -/
structure AggState where
  data : List Nat
  cell_indices : List Nat
  gene_indices : List Nat
  n_cells : Nat
  cell_id_to_index : List (String × Nat)
  current_molecule : Option (String × String × String)
deriving DecidableEq, Repr

/-- The loop state before the first record. -/
def initState : AggState :=
  { data := [], cell_indices := [], gene_indices := [], n_cells := 0,
    cell_id_to_index := [], current_molecule := none }

/-- The `try: cell_index = cell_id_to_index[cell] / except KeyError:` row
resolution (lines 158-163): the interned index when the cell was seen before,
else the fresh index `n_cells`. -/
def resolvedRow (s : AggState) (cell : String) : Nat :=
  match dictFind s.cell_id_to_index cell with
  | some ci => ci
  | none => s.n_cells

/-- The state after the loop body counts one molecule (lines 158-171): intern
the cell barcode if new, append one count at `(cell_index, gene_index)`, and
remember the molecule key. -/
def emitState (s : AggState) (gene cell molecule : String) (gene_index : Nat) : AggState :=
  { data := s.data ++ [1],
    cell_indices := s.cell_indices ++ [resolvedRow s cell],
    gene_indices := s.gene_indices ++ [gene_index],
    n_cells := if (dictFind s.cell_id_to_index cell).isSome then s.n_cells else s.n_cells + 1,
    cell_id_to_index :=
      if (dictFind s.cell_id_to_index cell).isSome then s.cell_id_to_index
      else dictInsert s.cell_id_to_index cell s.n_cells,
    current_molecule := some (gene, cell, molecule) }

/-- One iteration of the `for sam_record in f` loop (lines 136-171): drop the
record when a tag is missing or the mapping quality is below threshold, skip
when it repeats `current_molecule`, raise (KeyError) when its gene is not in
`gene_id_to_index`, otherwise intern the cell barcode and append one count. -/
def processRecord (cfg : Config) (gene_id_to_index : List (String × Nat))
    (s : AggState) (r : SamRecord) : Except String AggState :=
  match r.get_tag cfg.gene_id_tag, r.get_tag cfg.cell_barcode_tag,
      r.get_tag cfg.molecule_barcode_tag with
  | some gene, some cell, some molecule =>
    if r.mapping_quality < cfg.mapq_threshold then .ok s
    else if s.current_molecule = some (gene, cell, molecule) then .ok s
    else
      match dictFind gene_id_to_index gene with
      | none => .error "KeyError: gene not in gene_id_to_index"
      | some gene_index => .ok (emitState s gene cell molecule gene_index)
  | _, _, _ => .ok s

/-- The whole record loop: fold `processRecord` over the stream in order,
propagating the fatal gene-lookup error. -/
def processRecords (cfg : Config) (gene_id_to_index : List (String × Nat)) :
    AggState → List SamRecord → Except String AggState
  | s, [] => .ok s
  | s, r :: rest =>
    match processRecord cfg gene_id_to_index s r with
    | .error e => .error e
    | .ok s2 => processRecords cfg gene_id_to_index s2 rest

/-- Zip the three parallel arrays into the coordinate triples handed to
`coo_matrix((data, (cell_indices, gene_indices)))`. -/
def zip3 : List Nat → List Nat → List Nat → List (Nat × Nat × Nat)
  | r :: rs, c :: cs, v :: vs => (r, c, v) :: zip3 rs cs vs
  | _, _, _ => []

/-- The method `CountMatrix.from_bam` (lines 44-187): build `gene_id_to_index` from the
annotation feed, run the record loop, then assemble shape
`(len(cell_indices), len(gene_id_to_index))`, the coordinate matrix, and the
label arrays sorted by index value. -/
def from_bam (cfg : Config) (ann : List GtfRecord) (stream : List SamRecord) :
    Except String CountMatrix := do
  let gene_id_to_index ← buildGeneIndex ann
  let s ← processRecords cfg gene_id_to_index initState stream
  let gene_number := gene_id_to_index.length
  let cell_number := s.cell_indices.length
  let shape := (cell_number, gene_number)
  let triples := zip3 s.cell_indices s.gene_indices s.data
  let col_iterable := (sortedByValue gene_id_to_index).map Prod.fst
  let row_iterable := (sortedByValue s.cell_id_to_index).map Prod.fst
  .ok { matrix := { shape := shape, triples := triples },
        row_index := row_iterable, col_index := col_iterable }

/-- The molecular identity `(gene, cell, molecule)` of a record, when all
three tags are present. -/
def recordKey (cfg : Config) (r : SamRecord) : Option (String × String × String) :=
  match r.get_tag cfg.gene_id_tag, r.get_tag cfg.cell_barcode_tag,
      r.get_tag cfg.molecule_barcode_tag with
  | some gene, some cell, some molecule => some (gene, cell, molecule)
  | _, _, _ => none

/-- The silent per-record filter of the loop: a tag is missing, or the mapping
quality is below the threshold. -/
def droppedRecord (cfg : Config) (r : SamRecord) : Prop :=
  recordKey cfg r = none ∨ r.mapping_quality < cfg.mapq_threshold

instance (cfg : Config) (r : SamRecord) : Decidable (droppedRecord cfg r) := by
  unfold droppedRecord
  infer_instance

/-- The count accumulated so far in the parallel output arrays for the matrix
coordinate `(i, j)` (what `coo_matrix(...).tocsr()` will store there, before
the `uint32` truncation). -/
def stateCount (s : AggState) (i j : Nat) : Nat :=
  (((zip3 s.cell_indices s.gene_indices s.data).filter
      (fun t => t.1 = i ∧ t.2.1 = j)).map (fun t => t.2.2)).sum

/-- How many times the record loop counts a molecule bearing the key `t`
while scanning the stream from state `s`: a record contributes when its key is
`t` and its iteration appended a count (`data` grew). -/
def countMoleculesOf (cfg : Config) (gene_id_to_index : List (String × Nat)) :
    AggState → List SamRecord → (String × String × String) → Nat
  | _, [], _ => 0
  | s, r :: rest, t =>
    match processRecord cfg gene_id_to_index s r with
    | .error _ => 0
    | .ok s2 =>
      (if s2.data.length = s.data.length + 1 ∧ recordKey cfg r = some t then 1 else 0)
        + countMoleculesOf cfg gene_id_to_index s2 rest t

/-- The spec's GeneIndex invariant, as a predicate on the built dict: keys are
unique and the assigned indices are exactly `[0, size)`. -/
def bijectiveOntoRange (d : List (String × Nat)) : Prop :=
  (d.map Prod.fst).Nodup ∧ (d.map Prod.snd).Perm (List.range d.length)

instance (d : List (String × Nat)) : Decidable (bijectiveOntoRange d) := by
  unfold bijectiveOntoRange
  infer_instance

/-- The store the persistence methods write to: `.npz` blobs hold sparse
matrices (`sp.save_npz`), `.npy` blobs hold label arrays (`np.save`); a write
to an existing path overwrites it. -/
structure FileSystem where
  npz_files : List (String × CsrMatrix)
  npy_files : List (String × List String)
deriving DecidableEq, Repr

/-- Write `sp.save_npz(path, m)`. -/
def fsWriteNpz (fs : FileSystem) (path : String) (m : CsrMatrix) : FileSystem :=
  { fs with npz_files := (path, m) :: fs.npz_files }

/-- Write `np.save(path, labels)`. -/
def fsWriteNpy (fs : FileSystem) (path : String) (labels : List String) : FileSystem :=
  { fs with npy_files := (path, labels) :: fs.npy_files }

/-- Read `sp.load_npz(path)`: the stored matrix, or an error when the artifact is
missing. -/
def fsReadNpz (fs : FileSystem) (path : String) : Except String CsrMatrix :=
  match fs.npz_files.find? (fun p => p.1 = path) with
  | some p => .ok p.2
  | none => .error "FileNotFoundError"

/-- Read `np.load(path)`: the stored label array, or an error when missing. -/
def fsReadNpy (fs : FileSystem) (path : String) : Except String (List String) :=
  match fs.npy_files.find? (fun p => p.1 = path) with
  | some p => .ok p.2
  | none => .error "FileNotFoundError"

/-- The method `CountMatrix.save` (lines 193-196): write the matrix and the two label
arrays under the shared name prefix. -/
def CountMatrix.save (M : CountMatrix) (pfx : String) (fs : FileSystem) : FileSystem :=
  fsWriteNpy
    (fsWriteNpy (fsWriteNpz fs (pfx ++ ".npz") M.matrix)
      (pfx ++ "_row_index.npy") M.row_index)
    (pfx ++ "_col_index.npy") M.col_index

/-- The method `CountMatrix.load` (lines 198-203): read the three artifacts back under
the same prefix. -/
def CountMatrix.load (fs : FileSystem) (pfx : String) : Except String CountMatrix := do
  let matrix ← fsReadNpz fs (pfx ++ ".npz")
  let row_index ← fsReadNpy fs (pfx ++ "_row_index.npy")
  let col_index ← fsReadNpy fs (pfx ++ "_col_index.npy")
  .ok { matrix := matrix, row_index := row_index, col_index := col_index }

/-- Row-wise stacking of two sparse matrices: the second block's row
coordinates are shifted below the first. -/
def vstack2 (a b : CsrMatrix) : CsrMatrix :=
  { shape := (a.shape.1 + b.shape.1, a.shape.2),
    triples := a.triples ++ b.triples.map (fun t => (a.shape.1 + t.1, t.2.1, t.2.2)) }

/-- Fold of `vstack2`, failing on a column-count mismatch as scipy does. -/
def vstackAux : CsrMatrix → List CsrMatrix → Except String CsrMatrix
  | acc, [] => .ok acc
  | acc, m :: rest =>
    if m.shape.2 = acc.shape.2 then vstackAux (vstack2 acc m) rest
    else .error "ValueError: incompatible dimensions"

/-- Model of `sp.vstack(matrices, format='csr')`: row-wise concatenation; raises on an
empty input list or mismatched column counts. -/
def vstack : List CsrMatrix → Except String CsrMatrix
  | [] => .error "ValueError: no matrices were provided to stack"
  | m :: rest => vstackAux m rest

/-- The method `CountMatrix.merge_matrices` (lines 205-215): load the per-prefix
artifacts, stack the matrices row-wise, take column labels from the first
input and concatenate the row labels. -/
def merge_matrices (fs : FileSystem) (input_prefixes : List String) :
    Except String CountMatrix := do
  let col_indices ← input_prefixes.mapM (fun p => fsReadNpy fs (p ++ "_col_index.npy"))
  let row_indices ← input_prefixes.mapM (fun p => fsReadNpy fs (p ++ "_row_index.npy"))
  let matrices ← input_prefixes.mapM (fun p => fsReadNpz fs (p ++ ".npz"))
  let matrix ← vstack matrices
  match col_indices with
  | [] => .error "IndexError: list index out of range"
  | c :: _ => .ok { matrix := matrix, row_index := row_indices.flatten, col_index := c }

/-- Python `fin.readlines()`, accumulator style: split the content after each
newline, every line keeping its terminator; an unterminated final line is
returned without one. -/
def readlinesAux : List Char → List Char → List String
  | [], acc => if acc.isEmpty then [] else [String.mk acc.reverse]
  | c :: rest, acc =>
    if c = '\n' then String.mk (acc.reverse ++ ['\n']) :: readlinesAux rest []
    else readlinesAux rest (c :: acc)

/-- Python `fin.readlines()` on the file content. -/
def readlines (s : String) : List String := readlinesAux s.data []

/-- The method `CountMatrix.from_mtx` (lines 217-240): the matrix-market file is decoded
by scipy's `mmread` (external), modelled as the matrix value it yields; the
row and column label arrays are the raw `readlines()` output of the two label
files. -/
def from_mtx (mmread_matrix : CsrMatrix) (row_index_file col_index_file : String) :
    CountMatrix :=
  { matrix := mmread_matrix,
    row_index := readlines row_index_file,
    col_index := readlines col_index_file }

/-- An annotation record of type `gene` carrying a `gene_name` attribute
(concrete test fixture). -/
def gRec (name : String) : GtfRecord := ⟨"gene", [("gene_name", name)]⟩

/-- An alignment record with the three default tags set and mapping quality 10
(concrete test fixture). -/
def sRec (gene cell mol : String) : SamRecord :=
  ⟨[("GE", gene), ("CB", cell), ("UB", mol)], 10⟩

/-- The default `from_bam` configuration. -/
def cfg0 : Config := {}

/-- The spec's concrete annotation: two genes `GeneA`, `GeneB`. -/
def annAB : List GtfRecord := [gRec "GeneA", gRec "GeneB"]

/-- The spec's concrete alignment stream: `(GeneA,CellX,Mol1)` twice
contiguously, then `(GeneB,CellX,Mol2)`, then `(GeneA,CellY,Mol3)`. -/
def streamC1 : List SamRecord :=
  [sRec "GeneA" "CellX" "Mol1", sRec "GeneA" "CellX" "Mol1",
   sRec "GeneB" "CellX" "Mol2", sRec "GeneA" "CellY" "Mol3"]

/-! ## Helper lemmas -/

instance {ε α : Type} [DecidableEq ε] [DecidableEq α] : DecidableEq (Except ε α) := fun a b =>
  match a, b with
  | .error e, .error f => decidable_of_iff (e = f) (by simp)
  | .ok x, .ok y => decidable_of_iff (x = y) (by simp)
  | .error _, .ok _ => isFalse (fun h => Except.noConfusion h)
  | .ok _, .error _ => isFalse (fun h => Except.noConfusion h)

/-- Assignment `d[k] = v` appends when the key is absent. -/
theorem dictInsert_of_not_mem {d : List (String × Nat)} {k : String} (v : Nat)
    (h : k ∉ d.map Prod.fst) : dictInsert d k v = d ++ [(k, v)] := by
  have hf : d.find? (fun p => p.1 = k) = none := by
    rw [List.find?_eq_none]
    intro p hp
    simp only [decide_eq_true_eq]
    intro he
    exact h (he ▸ List.mem_map_of_mem Prod.fst hp)
  simp [dictInsert, hf]

/-- The enumerate loop of `from_bam`, run on records whose `gene_name`s are
present, pairwise distinct and fresh for the accumulator, appends each name
with its enumeration index. -/
theorem buildGeneIndexAux_ok :
    ∀ (l : List (Nat × GtfRecord)) (names : List String) (acc : List (String × Nat)),
      l.map (fun p => p.2.get_attribute "gene_name") = names.map some →
      names.Nodup →
      (∀ g ∈ names, g ∉ acc.map Prod.fst) →
      buildGeneIndexAux l acc = .ok (acc ++ names.zip (l.map Prod.fst))
  | [], names, acc, h1, _, _ => by
    have : names = [] := by
      cases names with
      | nil => rfl
      | cons a as => simp at h1
    subst this
    simp [buildGeneIndexAux]
  | (i, r) :: rest, names, acc, h1, h2, h3 => by
    cases names with
    | nil => simp at h1
    | cons g gs =>
      simp only [List.map_cons, List.cons.injEq] at h1
      obtain ⟨hattr, hrest⟩ := h1
      have hnd := List.nodup_cons.mp h2
      have hstep : dictInsert acc g i = acc ++ [(g, i)] :=
        dictInsert_of_not_mem i (h3 g (List.mem_cons_self g gs))
      have h3' : ∀ x ∈ gs, x ∉ (acc ++ [(g, i)]).map Prod.fst := by
        intro x hx
        simp only [List.map_append, List.mem_append, List.map_cons, List.map_nil,
          List.mem_singleton, not_or]
        refine ⟨h3 x (List.mem_cons_of_mem g hx), ?_⟩
        intro he
        exact hnd.1 (he ▸ hx)
      have ih := buildGeneIndexAux_ok rest gs (acc ++ [(g, i)]) hrest hnd.2 h3'
      simp only [buildGeneIndexAux, hattr, hstep, ih, List.map_cons, List.zip_cons_cons,
        List.append_assoc, List.singleton_append]

/-! ## Claim C1 -/

unseal List.merge List.mergeSort in
/-- Claim C1, evaluated at the spec's concrete scenario (two genes, four valid
records collapsing to three molecules across CellX and CellY): the code
returns the correct labels and count values, but `cell_number` is taken from
`len(cell_indices)` (the number of counted molecules, 3), not from the number
of distinct cells (2), so the matrix shape is `(3, 2)` while there are 2 row
labels — contradicting the claimed invariant
`matrix.shape == (len(row_labels), len(col_labels))` and the claimed shape
`(2, 2)`. -/
theorem C1_shape_bug :
    from_bam cfg0 annAB streamC1 = .ok
      { matrix := { shape := (3, 2), triples := [(0, 0, 1), (0, 1, 1), (1, 0, 1)] },
        row_index := ["CellX", "CellY"], col_index := ["GeneA", "GeneB"] } ∧
    ((3, 2) : Nat × Nat) ≠ (["CellX", "CellY"].length, ["GeneA", "GeneB"].length) := by
  constructor
  · decide
  · decide

/-! ## Claim C2 -/

/-- Claim C2 counterexample: for the annotation feed with two type-`gene`
records both named `A`, the built mapping is `{A: 1}` — its one index is `1`,
not an element of `[0, 1)`, so the mapping is not a bijection onto
`[0, num_genes)`. -/
theorem C2_counterexample :
    buildGeneIndex [gRec "A", gRec "A"] = .ok [("A", 1)] ∧
    ¬ bijectiveOntoRange [("A", 1)] := by
  constructor
  · decide
  · decide

/-- Claim C2 (amended): for every annotation feed whose type-`gene` records
carry pairwise-distinct `gene_name`s, the mapping built during `from_bam`
pairs the `k`-th such name with index `k` — a bijection onto
`[0, num_genes)` with indices assigned in annotation-scan order. -/
theorem C2_gene_index_bijective (ann : List GtfRecord) (names : List String)
    (h1 : (ann.filter (fun r => r.feature = "gene")).map
        (fun r => r.get_attribute "gene_name") = names.map some)
    (h2 : names.Nodup) :
    buildGeneIndex ann = .ok (names.zip (List.range names.length)) ∧
    bijectiveOntoRange (names.zip (List.range names.length)) := by
  set fl := ann.filter (fun r => r.feature = "gene") with hfl
  have hlen : fl.length = names.length := by
    have := congrArg List.length h1
    simpa using this
  have henum_attr : fl.enum.map (fun p => p.2.get_attribute "gene_name") = names.map some := by
    have h' : fl.enum.map (fun p => p.2.get_attribute "gene_name") =
        (fl.enum.map Prod.snd).map (fun r => r.get_attribute "gene_name") := by
      rw [List.map_map]
      rfl
    rw [h', List.enum_eq_enumFrom, List.enumFrom_map_snd, h1]
  have henum_fst : fl.enum.map Prod.fst = List.range names.length := by
    rw [List.enum_eq_enumFrom, List.enumFrom_map_fst, ← List.range_eq_range', hlen]
  have hbuild := buildGeneIndexAux_ok fl.enum names [] henum_attr h2 (by simp)
  rw [henum_fst] at hbuild
  constructor
  · rw [buildGeneIndex, ← hfl, hbuild]
    simp
  · constructor
    · rw [List.map_fst_zip names (List.range names.length) (by simp)]
      exact h2
    · rw [List.map_snd_zip names (List.range names.length) (by simp),
        List.length_zip, List.length_range, Nat.min_self]

/-- Witness for `C2_gene_index_bijective`: the spec's two-gene annotation
`[GeneA, GeneB]` yields the bijective mapping `{GeneA: 0, GeneB: 1}`. -/
theorem C2_gene_index_bijective_witness :
    buildGeneIndex annAB = .ok (["GeneA", "GeneB"].zip (List.range 2)) ∧
    bijectiveOntoRange (["GeneA", "GeneB"].zip (List.range 2)) :=
  C2_gene_index_bijective annAB ["GeneA", "GeneB"] (by decide) (by decide)

/-! ## Step lemmas for the record loop -/

@[simp]
theorem except_bind_ok {ε α β : Type} (a : α) (f : α → Except ε β) :
    (Except.ok a >>= f : Except ε β) = f a := rfl

@[simp]
theorem except_bind_error {ε α β : Type} (e : ε) (f : α → Except ε β) :
    ((Except.error e : Except ε α) >>= f : Except ε β) = Except.error e := rfl

/-- A valid, non-duplicate record with a known gene is counted: the loop body
moves to `emitState`. -/
theorem processRecord_emit (cfg : Config) (gi : List (String × Nat)) (s : AggState)
    (r : SamRecord) (gene cell molecule : String) (gidx : Nat)
    (hg : r.get_tag cfg.gene_id_tag = some gene)
    (hc : r.get_tag cfg.cell_barcode_tag = some cell)
    (hm : r.get_tag cfg.molecule_barcode_tag = some molecule)
    (hq : ¬ r.mapping_quality < cfg.mapq_threshold)
    (hcur : s.current_molecule ≠ some (gene, cell, molecule))
    (hgi : dictFind gi gene = some gidx) :
    processRecord cfg gi s r = .ok (emitState s gene cell molecule gidx) := by
  simp [processRecord, hg, hc, hm, hq, hcur, hgi]

/-- A valid record repeating `current_molecule` is skipped and the state is
unchanged. -/
theorem processRecord_skip_dup (cfg : Config) (gi : List (String × Nat)) (s : AggState)
    (r : SamRecord) (gene cell molecule : String)
    (hg : r.get_tag cfg.gene_id_tag = some gene)
    (hc : r.get_tag cfg.cell_barcode_tag = some cell)
    (hm : r.get_tag cfg.molecule_barcode_tag = some molecule)
    (hq : ¬ r.mapping_quality < cfg.mapq_threshold)
    (hcur : s.current_molecule = some (gene, cell, molecule)) :
    processRecord cfg gi s r = .ok s := by
  simp [processRecord, hg, hc, hm, hq, hcur]

/-- A dropped record (missing tag or sub-threshold mapping quality) leaves the
state unchanged and raises nothing. -/
theorem processRecord_dropped (cfg : Config) (gi : List (String × Nat)) (s : AggState)
    (r : SamRecord) (h : droppedRecord cfg r) :
    processRecord cfg gi s r = .ok s := by
  rcases h with hkey | hq
  · rw [recordKey] at hkey
    rcases hG : r.get_tag cfg.gene_id_tag with _ | g
      <;> rcases hC : r.get_tag cfg.cell_barcode_tag with _ | c
      <;> rcases hM : r.get_tag cfg.molecule_barcode_tag with _ | m
      <;> rw [hG, hC, hM] at hkey
      <;> simp [processRecord, hG, hC, hM]
    simp at hkey
  · rcases hG : r.get_tag cfg.gene_id_tag with _ | g
      <;> rcases hC : r.get_tag cfg.cell_barcode_tag with _ | c
      <;> rcases hM : r.get_tag cfg.molecule_barcode_tag with _ | m
      <;> simp [processRecord, hG, hC, hM, hq]

/-- Function `emitState` appends exactly one count. -/
theorem emitState_data_length (s : AggState) (gene cell molecule : String) (gidx : Nat) :
    (emitState s gene cell molecule gidx).data.length = s.data.length + 1 := by
  simp [emitState]

/-- After release of the counting branch the remembered key is the record's
key. -/
theorem emitState_current (s : AggState) (gene cell molecule : String) (gidx : Nat) :
    (emitState s gene cell molecule gidx).current_molecule = some (gene, cell, molecule) := rfl

/-- Further contiguous copies of an already-counted record are all skipped. -/
theorem processRecords_replicate_skip (cfg : Config) (gi : List (String × Nat))
    (r : SamRecord) (gene cell molecule : String)
    (hg : r.get_tag cfg.gene_id_tag = some gene)
    (hc : r.get_tag cfg.cell_barcode_tag = some cell)
    (hm : r.get_tag cfg.molecule_barcode_tag = some molecule)
    (hq : ¬ r.mapping_quality < cfg.mapq_threshold) :
    ∀ (n : Nat) (s : AggState), s.current_molecule = some (gene, cell, molecule) →
      processRecords cfg gi s (List.replicate n r) = .ok s
  | 0, s, _ => rfl
  | n + 1, s, hcur => by
    rw [List.replicate_succ, processRecords,
      processRecord_skip_dup cfg gi s r gene cell molecule hg hc hm hq hcur]
    exact processRecords_replicate_skip cfg gi r gene cell molecule hg hc hm hq n s hcur

/-- Function `zip3` distributes over appending one element to each of three
equal-length lists. -/
theorem zip3_append_singleton :
    ∀ (a b c : List Nat) (x y z : Nat), b.length = a.length → c.length = a.length →
      zip3 (a ++ [x]) (b ++ [y]) (c ++ [z]) = zip3 a b c ++ [(x, y, z)]
  | [], [], [], x, y, z, _, _ => rfl
  | [], b₀ :: _, _, _, _, _, h1, _ => by simp at h1
  | [], _, c₀ :: _, _, _, _, _, h2 => by cases h2
  | a₀ :: _, [], _, _, _, _, h1, _ => by simp at h1
  | a₀ :: as, b₀ :: bs, [], _, _, _, _, h2 => by simp at h2
  | a₀ :: as, b₀ :: bs, c₀ :: cs, x, y, z, h1, h2 => by
    simp only [List.length_cons, Nat.add_right_cancel_iff] at h1 h2
    simp only [List.cons_append, zip3]
    exact congrArg (List.cons _) (zip3_append_singleton as bs cs x y z h1 h2)

/-- Counting one molecule adds exactly its one count at its own coordinate:
the accumulated count at `(i, j)` grows by 1 there and is unchanged
elsewhere. -/
theorem stateCount_emitState (s : AggState) (gene cell molecule : String) (gidx : Nat)
    (i j : Nat)
    (hlen1 : s.cell_indices.length = s.data.length)
    (hlen2 : s.gene_indices.length = s.data.length) :
    stateCount (emitState s gene cell molecule gidx) i j =
      stateCount s i j + (if resolvedRow s cell = i ∧ gidx = j then 1 else 0) := by
  unfold stateCount emitState
  rw [zip3_append_singleton s.cell_indices s.gene_indices s.data (resolvedRow s cell) gidx 1
    (hlen2.trans hlen1.symm) hlen1.symm]
  rw [List.filter_append, List.map_append, List.sum_append]
  congr 1
  by_cases h : resolvedRow s cell = i ∧ gidx = j
  · simp [h]
  · simp [h]

/-! ## Claim C3 -/

/-- Claim C3: `k ≥ 1` contiguous valid records with the same
`(gene, cell, molecule)` key, entering the loop in any state whose
`current_molecule` differs from that key (and whose parallel arrays are
consistent), are collapsed to a single count: the loop succeeds, ends in the
state that counted the molecule once, and the accumulated count at the
record's `(row, column)` coordinate grows by exactly 1, not `k`. -/
theorem C3_contiguous_dedup (cfg : Config) (gi : List (String × Nat)) (r : SamRecord)
    (gene cell molecule : String) (gidx : Nat) (s : AggState) (k : Nat)
    (hg : r.get_tag cfg.gene_id_tag = some gene)
    (hc : r.get_tag cfg.cell_barcode_tag = some cell)
    (hm : r.get_tag cfg.molecule_barcode_tag = some molecule)
    (hq : ¬ r.mapping_quality < cfg.mapq_threshold)
    (hgi : dictFind gi gene = some gidx)
    (hcur : s.current_molecule ≠ some (gene, cell, molecule))
    (hk : 1 ≤ k)
    (hlen1 : s.cell_indices.length = s.data.length)
    (hlen2 : s.gene_indices.length = s.data.length) :
    processRecords cfg gi s (List.replicate k r) =
      .ok (emitState s gene cell molecule gidx) ∧
    stateCount (emitState s gene cell molecule gidx) (resolvedRow s cell) gidx =
      stateCount s (resolvedRow s cell) gidx + 1 := by
  constructor
  · obtain ⟨k', rfl⟩ : ∃ k', k = k' + 1 := ⟨k - 1, (Nat.succ_pred_eq_of_pos hk).symm⟩
    rw [List.replicate_succ, processRecords,
      processRecord_emit cfg gi s r gene cell molecule gidx hg hc hm hq hcur hgi]
    exact processRecords_replicate_skip cfg gi r gene cell molecule hg hc hm hq k' _
      (emitState_current s gene cell molecule gidx)
  · rw [stateCount_emitState s gene cell molecule gidx (resolvedRow s cell) gidx hlen1 hlen2]
    simp

/-- Witness for `C3_contiguous_dedup`: two contiguous copies of the
`(GeneA, CellX, Mol1)` record, from the initial state, produce one count. -/
theorem C3_contiguous_dedup_witness :
    processRecords cfg0 [("GeneA", 0)] initState
        (List.replicate 2 (sRec "GeneA" "CellX" "Mol1")) =
      .ok (emitState initState "GeneA" "CellX" "Mol1" 0) ∧
    stateCount (emitState initState "GeneA" "CellX" "Mol1" 0)
        (resolvedRow initState "CellX") 0 =
      stateCount initState (resolvedRow initState "CellX") 0 + 1 :=
  C3_contiguous_dedup cfg0 [("GeneA", 0)] (sRec "GeneA" "CellX" "Mol1")
    "GeneA" "CellX" "Mol1" 0 initState 2
    (by decide) (by decide) (by decide) (by decide) (by decide) (by decide)
    (by decide) (by decide) (by decide)

/-! ## Claim C8 -/

/-- Claim C8: when the same `(gene, cell, molecule)` key occurs twice with a
valid record bearing a different key strictly between the occurrences, the
loop counts the key's molecule twice — `current_molecule` only remembers the
immediately preceding counted key, so the second occurrence is not
collapsed. -/
theorem C8_noncontiguous_duplicates (cfg : Config) (gi : List (String × Nat))
    (r1 r2 : SamRecord) (g1 c1 m1 g2 c2 m2 : String) (i1 i2 : Nat)
    (hg1 : r1.get_tag cfg.gene_id_tag = some g1)
    (hc1 : r1.get_tag cfg.cell_barcode_tag = some c1)
    (hm1 : r1.get_tag cfg.molecule_barcode_tag = some m1)
    (hq1 : ¬ r1.mapping_quality < cfg.mapq_threshold)
    (hgi1 : dictFind gi g1 = some i1)
    (hg2 : r2.get_tag cfg.gene_id_tag = some g2)
    (hc2 : r2.get_tag cfg.cell_barcode_tag = some c2)
    (hm2 : r2.get_tag cfg.molecule_barcode_tag = some m2)
    (hq2 : ¬ r2.mapping_quality < cfg.mapq_threshold)
    (hgi2 : dictFind gi g2 = some i2)
    (hne : (g2, c2, m2) ≠ (g1, c1, m1)) :
    countMoleculesOf cfg gi initState [r1, r2, r1] (g1, c1, m1) = 2 := by
  have hk1 : recordKey cfg r1 = some (g1, c1, m1) := by
    simp [recordKey, hg1, hc1, hm1]
  have hk2 : recordKey cfg r2 = some (g2, c2, m2) := by
    simp [recordKey, hg2, hc2, hm2]
  have hcur0 : initState.current_molecule ≠ some (g1, c1, m1) := by
    simp [initState]
  have h1 := processRecord_emit cfg gi initState r1 g1 c1 m1 i1 hg1 hc1 hm1 hq1 hcur0 hgi1
  have hcur1 : (emitState initState g1 c1 m1 i1).current_molecule ≠ some (g2, c2, m2) := by
    rw [emitState_current]
    simp only [ne_eq, Option.some.injEq]
    exact fun h => hne h.symm
  have h2 := processRecord_emit cfg gi (emitState initState g1 c1 m1 i1) r2 g2 c2 m2 i2
    hg2 hc2 hm2 hq2 hcur1 hgi2
  have hcur2 :
      (emitState (emitState initState g1 c1 m1 i1) g2 c2 m2 i2).current_molecule ≠
        some (g1, c1, m1) := by
    rw [emitState_current]
    simp only [ne_eq, Option.some.injEq]
    exact hne
  have h3 := processRecord_emit cfg gi (emitState (emitState initState g1 c1 m1 i1) g2 c2 m2 i2)
    r1 g1 c1 m1 i1 hg1 hc1 hm1 hq1 hcur2 hgi1
  simp only [countMoleculesOf, h1, h2, h3, hk1, hk2, emitState_data_length,
    Option.some.injEq]
  simp [hne]

/-- Witness for `C8_noncontiguous_duplicates`: `(GeneA, CellX, Mol1)` occurs
at positions 1 and 3 with `(GeneB, CellX, Mol2)` in between; the key is
counted twice. -/
theorem C8_noncontiguous_duplicates_witness :
    countMoleculesOf cfg0 [("GeneA", 0), ("GeneB", 1)] initState
      [sRec "GeneA" "CellX" "Mol1", sRec "GeneB" "CellX" "Mol2", sRec "GeneA" "CellX" "Mol1"]
      ("GeneA", "CellX", "Mol1") = 2 :=
  C8_noncontiguous_duplicates cfg0 [("GeneA", 0), ("GeneB", 1)]
    (sRec "GeneA" "CellX" "Mol1") (sRec "GeneB" "CellX" "Mol2")
    "GeneA" "CellX" "Mol1" "GeneB" "CellX" "Mol2" 0 1
    (by decide) (by decide) (by decide) (by decide) (by decide)
    (by decide) (by decide) (by decide) (by decide) (by decide) (by decide)

/-! ## Claim C9 -/

/-- The loop ignores a dropped record wherever it occurs in the stream. -/
theorem processRecords_dropped_middle (cfg : Config) (gi : List (String × Nat))
    (r : SamRecord) (h : droppedRecord cfg r) :
    ∀ (pre post : List SamRecord) (s : AggState),
      processRecords cfg gi s (pre ++ r :: post) = processRecords cfg gi s (pre ++ post)
  | [], post, s => by
    simp only [List.nil_append]
    rw [processRecords, processRecord_dropped cfg gi s r h]
  | x :: xs, post, s => by
    simp only [List.cons_append, processRecords]
    cases processRecord cfg gi s x with
    | error e => rfl
    | ok s2 => exact processRecords_dropped_middle cfg gi r h xs post s2

/-- Claim C9: a record with a missing cell, molecule or gene tag, or with
mapping quality below the threshold, is silently dropped: the loop step
returns the state unchanged (never an error), and `from_bam` produces the
same result as on the stream with that record removed. -/
theorem C9_silent_drop (cfg : Config) (gi : List (String × Nat)) (ann : List GtfRecord)
    (s : AggState) (r : SamRecord) (pre post : List SamRecord)
    (h : droppedRecord cfg r) :
    processRecord cfg gi s r = .ok s ∧
    from_bam cfg ann (pre ++ r :: post) = from_bam cfg ann (pre ++ post) := by
  refine ⟨processRecord_dropped cfg gi s r h, ?_⟩
  unfold from_bam
  cases hb : buildGeneIndex ann with
  | error e => rfl
  | ok gi2 =>
    simp only [except_bind_ok]
    rw [processRecords_dropped_middle cfg gi2 r h pre post initState]

/-- An alignment record carrying only gene and cell tags (no molecule tag);
fixture for the dropped-record claims. -/
def recNoUB : SamRecord := ⟨[("GE", "GeneA"), ("CB", "CellX")], 10⟩

/-- Witness for `C9_silent_drop`: dropping the molecule-tag-less record
between two counted records changes nothing. -/
theorem C9_silent_drop_witness :
    processRecord cfg0 [("GeneA", 0)] initState recNoUB = .ok initState ∧
    from_bam cfg0 [gRec "GeneA"]
        ([sRec "GeneA" "CellX" "Mol1"] ++ recNoUB :: [sRec "GeneA" "CellX" "Mol2"]) =
      from_bam cfg0 [gRec "GeneA"]
        ([sRec "GeneA" "CellX" "Mol1"] ++ [sRec "GeneA" "CellX" "Mol2"]) :=
  C9_silent_drop cfg0 [("GeneA", 0)] [gRec "GeneA"] initState recNoUB
    [sRec "GeneA" "CellX" "Mol1"] [sRec "GeneA" "CellX" "Mol2"] (by decide)

/-! ## Claim C4 -/

/-- Did the computation produce a value (no exception escaped)? -/
def exceptIsOk {ε α : Type} : Except ε α → Bool
  | .ok _ => true
  | .error _ => false

/-- Loop invariant: any remembered molecule key has a gene that resolves in
the index (a key is only stored after its gene lookup succeeded). -/
def currentKnown (gi : List (String × Nat)) (s : AggState) : Prop :=
  ∀ g c m, s.current_molecule = some (g, c, m) → (dictFind gi g).isSome

/-- A valid, non-duplicate record with an unknown gene makes the loop body
raise the dict KeyError. -/
theorem processRecord_error_of_unknown (cfg : Config) (gi : List (String × Nat))
    (s : AggState) (r : SamRecord) (gene cell molecule : String)
    (hg : r.get_tag cfg.gene_id_tag = some gene)
    (hc : r.get_tag cfg.cell_barcode_tag = some cell)
    (hm : r.get_tag cfg.molecule_barcode_tag = some molecule)
    (hq : ¬ r.mapping_quality < cfg.mapq_threshold)
    (hcur : s.current_molecule ≠ some (gene, cell, molecule))
    (hgi : dictFind gi gene = none) :
    processRecord cfg gi s r = .error "KeyError: gene not in gene_id_to_index" := by
  simp [processRecord, hg, hc, hm, hq, hcur, hgi]

/-- Each loop step preserves `currentKnown`. -/
theorem processRecord_preserves_currentKnown (cfg : Config) (gi : List (String × Nat))
    (s : AggState) (r : SamRecord) (s2 : AggState)
    (h : processRecord cfg gi s r = .ok s2) (hs : currentKnown gi s) :
    currentKnown gi s2 := by
  rcases hG : r.get_tag cfg.gene_id_tag with _ | gene
    <;> rcases hC : r.get_tag cfg.cell_barcode_tag with _ | cell
    <;> rcases hM : r.get_tag cfg.molecule_barcode_tag with _ | molecule
    <;> simp only [processRecord, hG, hC, hM, Except.ok.injEq] at h
    <;> try (subst h; exact hs)
  by_cases hq : r.mapping_quality < cfg.mapq_threshold
  · rw [if_pos hq, Except.ok.injEq] at h
    subst h
    exact hs
  · rw [if_neg hq] at h
    by_cases hcur : s.current_molecule = some (gene, cell, molecule)
    · rw [if_pos hcur, Except.ok.injEq] at h
      subst h
      exact hs
    · rw [if_neg hcur] at h
      cases hgi : dictFind gi gene with
      | none =>
        rw [hgi] at h
        cases h
      | some gidx =>
        rw [hgi, Except.ok.injEq] at h
        subst h
        intro g c m hcm
        rw [emitState_current, Option.some.injEq] at hcm
        have hgg : gene = g := congrArg Prod.fst hcm
        rw [← hgg, hgi]
        rfl

/-- Once the stream reaches a valid record with an unknown gene, the whole
loop fails — whatever happened before, no state survives to the end. -/
theorem processRecords_error_of_unknown (cfg : Config) (gi : List (String × Nat))
    (r : SamRecord) (gene cell molecule : String)
    (hg : r.get_tag cfg.gene_id_tag = some gene)
    (hc : r.get_tag cfg.cell_barcode_tag = some cell)
    (hm : r.get_tag cfg.molecule_barcode_tag = some molecule)
    (hq : ¬ r.mapping_quality < cfg.mapq_threshold)
    (hgi : dictFind gi gene = none) :
    ∀ (pre post : List SamRecord) (s : AggState), currentKnown gi s →
      exceptIsOk (processRecords cfg gi s (pre ++ r :: post)) = false
  | [], post, s, hs => by
    have hcur : s.current_molecule ≠ some (gene, cell, molecule) := by
      intro hc2
      have hk := hs gene cell molecule hc2
      rw [hgi] at hk
      simp at hk
    simp only [List.nil_append, processRecords,
      processRecord_error_of_unknown cfg gi s r gene cell molecule hg hc hm hq hcur hgi]
    rfl
  | x :: xs, post, s, hs => by
    simp only [List.cons_append, processRecords]
    cases hx : processRecord cfg gi s x with
    | error e => rfl
    | ok s2 =>
      exact processRecords_error_of_unknown cfg gi r gene cell molecule hg hc hm hq hgi
        xs post s2 (processRecord_preserves_currentKnown cfg gi s x s2 hx hs)

/-- An alignment record with gene tag `Bogus` (unknown) and no molecule tag;
fixture for the C4 counterexample. -/
def recNoUBBogus : SamRecord := ⟨[("GE", "Bogus"), ("CB", "CellX")], 10⟩

unseal List.merge List.mergeSort in
/-- Claim C4 counterexample: a record whose gene tag is present (`Bogus`, not
in the gene index) but whose molecule tag is missing is dropped by the tag
filter before the gene lookup runs, so `from_bam` succeeds and produces a
matrix — the claim's premise (a record with a present, unindexed gene tag) is
met, yet no error is raised. -/
theorem C4_counterexample :
    recNoUBBogus.get_tag cfg0.gene_id_tag = some "Bogus" ∧
    buildGeneIndex [gRec "GeneA"] = .ok [("GeneA", 0)] ∧
    dictFind [("GeneA", 0)] "Bogus" = none ∧
    from_bam cfg0 [gRec "GeneA"] [recNoUBBogus] =
      .ok { matrix := { shape := (0, 1), triples := [] },
            row_index := [], col_index := ["GeneA"] } := by
  refine ⟨by decide, by decide, by decide, ?_⟩
  decide

/-- Claim C4 (amended): when a record passing the silent filter (all three
tags present, mapping quality at or above threshold) carries a gene tag with
no entry in the gene index, `from_bam` raises (the dict KeyError) and no
matrix is produced — such a record can never be skipped by the duplicate
check, because only keys with known genes are ever remembered. -/
theorem C4_unknown_gene_fatal (cfg : Config) (ann : List GtfRecord)
    (gi : List (String × Nat)) (r : SamRecord) (gene cell molecule : String)
    (pre post : List SamRecord)
    (hb : buildGeneIndex ann = .ok gi)
    (hg : r.get_tag cfg.gene_id_tag = some gene)
    (hc : r.get_tag cfg.cell_barcode_tag = some cell)
    (hm : r.get_tag cfg.molecule_barcode_tag = some molecule)
    (hq : ¬ r.mapping_quality < cfg.mapq_threshold)
    (hgi : dictFind gi gene = none) :
    exceptIsOk (from_bam cfg ann (pre ++ r :: post)) = false := by
  have herr := processRecords_error_of_unknown cfg gi r gene cell molecule hg hc hm hq hgi
    pre post initState (by intro g c m hcm; simp [initState] at hcm)
  unfold from_bam
  rw [hb]
  simp only [except_bind_ok]
  cases hp : processRecords cfg gi initState (pre ++ r :: post) with
  | error e => rfl
  | ok s =>
    rw [hp] at herr
    simp [exceptIsOk] at herr

/-- Witness for `C4_unknown_gene_fatal`: one fully tagged record with the
unknown gene `Bogus` aborts `from_bam`. -/
theorem C4_unknown_gene_fatal_witness :
    exceptIsOk (from_bam cfg0 [gRec "GeneA"] [sRec "Bogus" "CellX" "Mol1"]) = false :=
  C4_unknown_gene_fatal cfg0 [gRec "GeneA"] [("GeneA", 0)]
    (sRec "Bogus" "CellX" "Mol1") "Bogus" "CellX" "Mol1" [] []
    (by decide) (by decide) (by decide) (by decide) (by decide) (by decide)

/-! ## Claim C5 -/

/-- Loop invariant: the cell dict's values, read in insertion order, are
exactly `0, 1, ..., n_cells - 1` — index `k` belongs to the `k`-th distinct
cell interned. -/
def cellIndexInv (s : AggState) : Prop :=
  s.cell_id_to_index.map Prod.snd = List.range s.n_cells

/-- Counting a molecule preserves the consecutive-index invariant: an old
cell changes nothing, a new cell is appended with the next index. -/
theorem emitState_cellIndexInv (s : AggState) (gene cell molecule : String) (gidx : Nat)
    (hs : cellIndexInv s) : cellIndexInv (emitState s gene cell molecule gidx) := by
  unfold cellIndexInv at hs ⊢
  simp only [emitState]
  cases hf : dictFind s.cell_id_to_index cell with
  | some ci =>
    simp only [hf, Option.isSome_some, if_pos]
    exact hs
  | none =>
    have hfind : s.cell_id_to_index.find? (fun p => p.1 = cell) = none := by
      cases ho : s.cell_id_to_index.find? (fun p => p.1 = cell) with
      | none => rfl
      | some p =>
        unfold dictFind at hf
        rw [ho] at hf
        cases hf
    simp only [hf, Option.isSome_none, Bool.false_eq_true, if_false]
    rw [dictInsert, hfind]
    simp only [Option.isSome_none, Bool.false_eq_true, if_false]
    rw [List.map_append, hs]
    simp [List.range_succ]

/-- Each accepted loop step preserves the consecutive-index invariant. -/
theorem processRecord_cellIndexInv (cfg : Config) (gi : List (String × Nat))
    (s : AggState) (r : SamRecord) (s2 : AggState)
    (h : processRecord cfg gi s r = .ok s2) (hs : cellIndexInv s) : cellIndexInv s2 := by
  rcases hG : r.get_tag cfg.gene_id_tag with _ | gene
    <;> rcases hC : r.get_tag cfg.cell_barcode_tag with _ | cell
    <;> rcases hM : r.get_tag cfg.molecule_barcode_tag with _ | molecule
    <;> simp only [processRecord, hG, hC, hM, Except.ok.injEq] at h
    <;> try (subst h; exact hs)
  by_cases hq : r.mapping_quality < cfg.mapq_threshold
  · rw [if_pos hq, Except.ok.injEq] at h
    subst h
    exact hs
  · rw [if_neg hq] at h
    by_cases hcur : s.current_molecule = some (gene, cell, molecule)
    · rw [if_pos hcur, Except.ok.injEq] at h
      subst h
      exact hs
    · rw [if_neg hcur] at h
      cases hgi : dictFind gi gene with
      | none =>
        rw [hgi] at h
        cases h
      | some gidx =>
        rw [hgi, Except.ok.injEq] at h
        subst h
        exact emitState_cellIndexInv s gene cell molecule gidx hs

/-- The whole loop preserves the consecutive-index invariant. -/
theorem processRecords_cellIndexInv (cfg : Config) (gi : List (String × Nat)) :
    ∀ (stream : List SamRecord) (s s2 : AggState),
      processRecords cfg gi s stream = .ok s2 → cellIndexInv s → cellIndexInv s2
  | [], s, s2, h, hs => by
    rw [processRecords, Except.ok.injEq] at h
    exact h ▸ hs
  | r :: rest, s, s2, h, hs => by
    rw [processRecords] at h
    cases hx : processRecord cfg gi s r with
    | error e => rw [hx] at h; cases h
    | ok s3 =>
      rw [hx] at h
      exact processRecords_cellIndexInv cfg gi rest s3 s2 h
        (processRecord_cellIndexInv cfg gi s r s3 hx hs)

/-- A dict whose values are `0, 1, ..., n-1` in order is already sorted by
value, so Python's stable `sorted(..., key=itemgetter(1))` returns it
unchanged. -/
theorem sortedByValue_of_range (d : List (String × Nat)) (n : Nat)
    (h : d.map Prod.snd = List.range n) : sortedByValue d = d := by
  apply List.mergeSort_of_sorted
  have hr := List.sorted_le_range n
  rw [← h] at hr
  have hp : List.Pairwise (fun a b : String × Nat => a.2 ≤ b.2) d := List.pairwise_map.mp hr
  exact hp.imp (fun hab => by simpa using hab)

/-- Claim C5: row indices are assigned in first-seen order — when the record
loop ends in state `s`, the cell dict pairs the `k`-th distinct counted cell
barcode with index `k`, and the row labels `from_bam` returns are exactly the
barcodes in that first-seen order. -/
theorem C5_first_seen_rows (cfg : Config) (ann : List GtfRecord) (stream : List SamRecord)
    (gi : List (String × Nat)) (s : AggState) (M : CountMatrix)
    (hb : buildGeneIndex ann = .ok gi)
    (hs : processRecords cfg gi initState stream = .ok s)
    (hM : from_bam cfg ann stream = .ok M) :
    M.row_index = s.cell_id_to_index.map Prod.fst ∧
    s.cell_id_to_index.map Prod.snd = List.range s.n_cells := by
  have hinv : cellIndexInv s :=
    processRecords_cellIndexInv cfg gi stream initState s hs (by simp [cellIndexInv, initState])
  refine ⟨?_, hinv⟩
  unfold from_bam at hM
  rw [hb] at hM
  simp only [except_bind_ok] at hM
  rw [hs] at hM
  simp only [except_bind_ok, Except.ok.injEq] at hM
  rw [← hM]
  show (sortedByValue s.cell_id_to_index).map Prod.fst = _
  rw [sortedByValue_of_range s.cell_id_to_index s.n_cells hinv]

/-- The spec's C5 annotation fixture: four genes so each record carries a
distinct gene tag. -/
def ann5 : List GtfRecord := [gRec "g1", gRec "g2", gRec "g3", gRec "g4"]

/-- The spec's C5 stream fixture: cells in stream order `c2, c1, c2, c3`. -/
def stream5 : List SamRecord :=
  [sRec "g1" "c2" "m1", sRec "g2" "c1" "m2", sRec "g3" "c2" "m3", sRec "g4" "c3" "m4"]

/-- The loop state after `stream5`: row labels `c2, c1, c3` with indices
`0, 1, 2`. -/
def s5 : AggState :=
  { data := [1, 1, 1, 1], cell_indices := [0, 1, 0, 2], gene_indices := [0, 1, 2, 3],
    n_cells := 3, cell_id_to_index := [("c2", 0), ("c1", 1), ("c3", 2)],
    current_molecule := some ("g4", "c3", "m4") }

/-- The matrix `from_bam` builds from `stream5`. -/
def M5 : CountMatrix :=
  { matrix := { shape := (4, 4), triples := [(0, 0, 1), (1, 1, 1), (0, 2, 1), (2, 3, 1)] },
    row_index := ["c2", "c1", "c3"], col_index := ["g1", "g2", "g3", "g4"] }

unseal List.merge List.mergeSort in
/-- Witness for `C5_first_seen_rows`: for cells in stream order
`[c2, c1, c2, c3]` the row labels come out as `[c2, c1, c3]` with indices
`0, 1, 2`. -/
theorem C5_first_seen_rows_witness :
    M5.row_index = s5.cell_id_to_index.map Prod.fst ∧
    s5.cell_id_to_index.map Prod.snd = List.range s5.n_cells :=
  C5_first_seen_rows cfg0 ann5 stream5 [("g1", 0), ("g2", 1), ("g3", 2), ("g4", 3)] s5 M5
    (by decide) (by decide) (by decide)

/-! ## Claim C6 -/

/-- Appending different suffixes to the same prefix gives different paths, so
the three artifacts of one save never clobber each other. -/
theorem string_append_ne (p a b : String) (h : a ≠ b) : p ++ a ≠ p ++ b := by
  intro he
  apply h
  apply String.ext
  have hd := congrArg String.data he
  rw [String.data_append, String.data_append] at hd
  exact List.append_cancel_left hd

/-- Claim C6: loading after saving under the same prefix restores the exact
matrix — same matrix value, same row-label sequence, same column-label
sequence, whatever was in the store before. -/
theorem C6_save_load_roundtrip (M : CountMatrix) (fs : FileSystem) (pfx : String) :
    CountMatrix.load (M.save pfx fs) pfx = .ok M := by
  have h1 : pfx ++ "_col_index.npy" ≠ pfx ++ "_row_index.npy" :=
    string_append_ne pfx "_col_index.npy" "_row_index.npy" (by decide)
  unfold CountMatrix.save CountMatrix.load fsWriteNpz fsWriteNpy fsReadNpz fsReadNpy
  simp [List.find?, h1]

/-! ## Claim C7 -/

/-- A successful `load` pins down the three stored artifacts. -/
theorem load_ok_components (fs : FileSystem) (p : String) (M : CountMatrix)
    (h : CountMatrix.load fs p = .ok M) :
    fsReadNpz fs (p ++ ".npz") = .ok M.matrix ∧
    fsReadNpy fs (p ++ "_row_index.npy") = .ok M.row_index ∧
    fsReadNpy fs (p ++ "_col_index.npy") = .ok M.col_index := by
  unfold CountMatrix.load at h
  cases hz : fsReadNpz fs (p ++ ".npz") with
  | error e => rw [hz] at h; simp at h
  | ok mat =>
    rw [hz] at h
    simp only [except_bind_ok] at h
    cases hr : fsReadNpy fs (p ++ "_row_index.npy") with
    | error e => rw [hr] at h; simp at h
    | ok row =>
      rw [hr] at h
      simp only [except_bind_ok] at h
      cases hc : fsReadNpy fs (p ++ "_col_index.npy") with
      | error e => rw [hc] at h; simp at h
      | ok col =>
        rw [hc] at h
        simp only [except_bind_ok, Except.ok.injEq] at h
        rw [← h]
        exact ⟨rfl, rfl, rfl⟩

/-- A `mapM` whose function succeeds pointwise collects the values. -/
theorem mapM_ok_of_forall {β : Type} (f : String → Except String β) (g : String → β) :
    ∀ (l : List String), (∀ p ∈ l, f p = .ok (g p)) → l.mapM f = .ok (l.map g)
  | [], _ => rfl
  | p :: ps, h => by
    rw [List.mapM_cons, h p (List.mem_cons_self p ps)]
    simp only [except_bind_ok]
    rw [mapM_ok_of_forall f g ps (fun q hq => h q (List.mem_cons_of_mem p hq))]
    simp only [except_bind_ok, List.map_cons]
    rfl

/-- Row-stacking matrices of a common column count succeeds, sums the row
counts and keeps the column count. -/
theorem vstackAux_shape :
    ∀ (ms : List CsrMatrix) (acc : CsrMatrix),
      (∀ m ∈ ms, m.shape.2 = acc.shape.2) →
      ∃ R, vstackAux acc ms = .ok R ∧
        R.shape.1 = acc.shape.1 + (ms.map (fun m => m.shape.1)).sum ∧
        R.shape.2 = acc.shape.2
  | [], acc, _ => ⟨acc, rfl, by simp, rfl⟩
  | m :: ms, acc, h => by
    have hm : m.shape.2 = acc.shape.2 := h m (List.mem_cons_self m ms)
    have hrest : ∀ x ∈ ms, x.shape.2 = (vstack2 acc m).shape.2 := by
      intro x hx
      rw [show (vstack2 acc m).shape.2 = acc.shape.2 from rfl]
      exact h x (List.mem_cons_of_mem m hx)
    obtain ⟨R, hR, h1, h2⟩ := vstackAux_shape ms (vstack2 acc m) hrest
    refine ⟨R, ?_, ?_, ?_⟩
    · rw [vstackAux, if_pos hm]
      exact hR
    · rw [h1]
      show acc.shape.1 + m.shape.1 + (ms.map (fun x => x.shape.1)).sum = _
      rw [List.map_cons, List.sum_cons, Nat.add_assoc]
    · exact h2

/-- Claim C7: merging a nonempty sequence of stored matrices with identical
column labels (and hence matching matrix column counts) stacks them row-wise:
the result's row count is the sum of the inputs' row counts, its row labels
are the concatenation of the inputs' row labels in input order, and its
column labels are those of the first input. -/
theorem C7_merge_rowwise (fs : FileSystem) (p0 : String) (rest : List String)
    (M : String → CountMatrix)
    (hload : ∀ p ∈ p0 :: rest, CountMatrix.load fs p = .ok (M p))
    (hcols : ∀ p ∈ p0 :: rest, (M p).col_index = (M p0).col_index)
    (hshape : ∀ p ∈ p0 :: rest, (M p).matrix.shape.2 = (M p0).matrix.shape.2) :
    (merge_matrices fs (p0 :: rest)).map
        (fun R => (R.matrix.shape.1, R.matrix.shape.2, R.row_index, R.col_index)) =
      .ok (((p0 :: rest).map (fun p => (M p).matrix.shape.1)).sum,
           (M p0).matrix.shape.2,
           ((p0 :: rest).map (fun p => (M p).row_index)).flatten,
           (M p0).col_index) := by
  have hcolM := mapM_ok_of_forall (fun p => fsReadNpy fs (p ++ "_col_index.npy"))
    (fun p => (M p).col_index) (p0 :: rest)
    (fun p hp => (load_ok_components fs p (M p) (hload p hp)).2.2)
  have hrowM := mapM_ok_of_forall (fun p => fsReadNpy fs (p ++ "_row_index.npy"))
    (fun p => (M p).row_index) (p0 :: rest)
    (fun p hp => (load_ok_components fs p (M p) (hload p hp)).2.1)
  have hmatM := mapM_ok_of_forall (fun p => fsReadNpz fs (p ++ ".npz"))
    (fun p => (M p).matrix) (p0 :: rest)
    (fun p hp => (load_ok_components fs p (M p) (hload p hp)).1)
  have hstk : ∀ x ∈ rest.map (fun p => (M p).matrix),
      x.shape.2 = ((M p0).matrix).shape.2 := by
    intro x hx
    obtain ⟨q, hq, rfl⟩ := List.mem_map.mp hx
    exact hshape q (List.mem_cons_of_mem p0 hq)
  obtain ⟨R, hR, h1, h2⟩ := vstackAux_shape (rest.map (fun p => (M p).matrix))
    ((M p0).matrix) hstk
  unfold merge_matrices
  rw [hcolM]
  simp only [except_bind_ok]
  rw [hrowM]
  simp only [except_bind_ok]
  rw [hmatM]
  simp only [except_bind_ok, List.map_cons]
  rw [vstack, hR]
  simp only [except_bind_ok]
  simp only [Except.map, List.map_cons, List.sum_cons, Except.ok.injEq]
  rw [h1, h2]
  simp only [List.map_map]
  rfl

/-- First stored matrix for the merge witness: 2 rows, 1 column. -/
def MA : CountMatrix :=
  { matrix := { shape := (2, 1), triples := [(0, 0, 5)] },
    row_index := ["r1", "r2"], col_index := ["g"] }

/-- Second stored matrix for the merge witness: 3 rows, 1 column. -/
def MB : CountMatrix :=
  { matrix := { shape := (3, 1), triples := [(2, 0, 7)] },
    row_index := ["r3", "r4", "r5"], col_index := ["g"] }

/-- A store holding `MA` under prefix `a` and `MB` under prefix `b`. -/
def fsAB : FileSystem := MB.save "b" (MA.save "a" ⟨[], []⟩)

/-- The per-prefix matrix assignment of the merge witness. -/
def MfunAB : String → CountMatrix := fun p => if p = "a" then MA else MB

/-- Witness for `C7_merge_rowwise`: merging the stored `(2,1)` and `(3,1)`
matrices yields 5 rows, 1 column, concatenated row labels, and the first
input's column labels. -/
theorem C7_merge_rowwise_witness :
    (merge_matrices fsAB ["a", "b"]).map
        (fun R => (R.matrix.shape.1, R.matrix.shape.2, R.row_index, R.col_index)) =
      .ok (5, 1, ["r1", "r2", "r3", "r4", "r5"], ["g"]) := by
  have h := C7_merge_rowwise fsAB "a" ["b"] MfunAB (by decide) (by decide) (by decide)
  simpa [MfunAB, MA, MB] using h

/-! ## Claim C10 -/

/-- Membership in `dropLast` of a cons: the head, or a non-final member of
the tail. -/
theorem mem_dropLast_cons {α : Type} (l x : α) (xs : List α)
    (h : l ∈ (x :: xs).dropLast) : l = x ∨ l ∈ xs.dropLast := by
  cases xs with
  | nil => simp at h
  | cons y ys =>
    rw [List.dropLast_cons₂] at h
    exact List.mem_cons.mp h

/-- Every line `readlines` produces, except the last, ends with the newline
it was split at. -/
theorem readlinesAux_dropLast_newline :
    ∀ (cs acc : List Char) (l : String),
      l ∈ (readlinesAux cs acc).dropLast → l.data.getLast? = some '\n'
  | [], acc, l, h => by
    unfold readlinesAux at h
    by_cases ha : acc.isEmpty <;> simp [ha] at h
  | c :: rest, acc, l, h => by
    rw [readlinesAux] at h
    by_cases hc : c = '\n'
    · rw [if_pos hc] at h
      rcases mem_dropLast_cons l _ _ h with h | h
      · subst h
        show (acc.reverse ++ ['\n']).getLast? = some '\n'
        exact List.getLast?_concat acc.reverse
      · exact readlinesAux_dropLast_newline rest [] l h
    · rw [if_neg hc] at h
      exact readlinesAux_dropLast_newline rest (c :: acc) l h

/-- The matrix-market payload used in the C10 fixtures (its value is
irrelevant to the label claims). -/
def mtx0 : CsrMatrix := { shape := (1, 1), triples := [(0, 0, 1)] }

unseal List.merge List.mergeSort in
/-- Claim C10 counterexample: when the row-label file has no terminating
newline, `readlines` returns its last line verbatim, so the label `from_mtx`
imports for `CellX` is exactly the newline-free label `from_bam` produces for
the same identifier — refuting "never equal". -/
theorem C10_counterexample :
    (from_mtx mtx0 "CellX" "GeneA").row_index = ["CellX"] ∧
    (from_bam cfg0 [gRec "GeneA"] [sRec "GeneA" "CellX" "Mol1"]).map CountMatrix.row_index =
      .ok ["CellX"] := by
  constructor
  · decide
  · decide

/-- Claim C10 (amended): every row label `from_mtx` imports, except the
file's final line, retains its trailing newline, and therefore differs from
any newline-free row label `from_bam` produced; only an unterminated final
line can coincide with one. -/
theorem C10_trailing_newlines (mat : CsrMatrix) (rowfile colfile : String)
    (cfg : Config) (ann : List GtfRecord) (stream : List SamRecord) (N : CountMatrix)
    (l b : String)
    (hl : l ∈ ((from_mtx mat rowfile colfile).row_index).dropLast)
    (hN : from_bam cfg ann stream = .ok N)
    (hb : b ∈ N.row_index)
    (hnb : '\n' ∉ b.data) :
    l.data.getLast? = some '\n' ∧ l ≠ b := by
  have hlast : l.data.getLast? = some '\n' :=
    readlinesAux_dropLast_newline rowfile.data [] l hl
  refine ⟨hlast, ?_⟩
  intro he
  subst he
  exact hnb (List.mem_of_getLast?_eq_some hlast)

/-- The matrix `from_bam` builds from the single `(GeneA, CellX, Mol1)`
record; fixture for the C10 witness. -/
def M10 : CountMatrix :=
  { matrix := { shape := (1, 1), triples := [(0, 0, 1)] },
    row_index := ["CellX"], col_index := ["GeneA"] }

unseal List.merge List.mergeSort in
/-- Witness for `C10_trailing_newlines`: with a newline-terminated label file
the imported `CellX` label keeps its newline and differs from `from_bam`'s
`CellX`. -/
theorem C10_trailing_newlines_witness :
    ("CellX\n" : String).data.getLast? = some '\n' ∧ ("CellX\n" : String) ≠ "CellX" :=
  C10_trailing_newlines mtx0 "CellX\nCellY\n" "GeneA\n" cfg0 [gRec "GeneA"]
    [sRec "GeneA" "CellX" "Mol1"] M10 "CellX\n" "CellX"
    (by decide) (by decide) (by decide) (by decide)

end Sctools
